import Mathlib

/-!
Shallow embedding of RigelEngine's display-presentation subsystem:
`src/renderer/upscaling_utils.cpp` (viewport geometry and the
`UpscalingBuffer` presentation engine) and `src/renderer/shader.cpp`
(shader program abstraction).

Conventions of the embedding:
* C++ `float` values are modelled as exact rationals (`ℚ`);
* a C++ float-to-int cast is truncation toward zero (`ftrunc`);
* C++ integer `%` is the truncated remainder (`Int.tmod`), integer `/`
  is truncated division (`Int.tdiv`);
* GPU resources carry an explicit numeric identity so that resource
  replacement is observable.
-/

namespace Rigel

/-- Integer 2D vector, `base::Vec2`. -/
structure Vec2 where
  x : ℤ
  y : ℤ
deriving DecidableEq, Repr

/-- Rational 2D vector, embedding `base::Vec2f` (floats as exact rationals). -/
structure Vec2f where
  x : ℚ
  y : ℚ
deriving DecidableEq, Repr

/-- Integer size, `base::Size<int>` (also `base::Extents`). -/
structure Size where
  width : ℤ
  height : ℤ
deriving DecidableEq, Repr

/-- C++ float-to-int conversion: truncation toward zero. -/
def ftrunc (q : ℚ) : ℤ := if 0 ≤ q then ⌊q⌋ else ⌈q⌉

/-- Modelled from the spec: `base::round` from `base/math_tools.hpp` (not
under `src/`); rounds half away from zero, i.e. `int(v + 0.5)` for the
nonnegative values arising here. -/
def rround (q : ℚ) : ℤ := if 0 ≤ q then ⌊q + 1 / 2⌋ else ⌈q - 1 / 2⌉

/-- Modelled from the spec: `data::GameTraits::aspectRatio` (the header
`data/game_traits.hpp` is not under `src/`); the logical 4:3 display aspect
ratio. -/
def aspectRatio : ℚ := 4 / 3

/-- Modelled from the spec: `data::GameTraits::viewPortWidthPx`, the fixed
logical viewport width; pinned by the spec's feasibility table (window width
640 is below `logicalWidth * 5` while 1600 is exactly feasible). -/
def viewPortWidthPx : ℤ := 320

/-- Modelled from the spec: `data::GameTraits::viewPortHeightPx`, the fixed
logical viewport height; window height 1200 is exactly `logicalHeight * 6`. -/
def viewPortHeightPx : ℤ := 200

/-- Modelled from the spec: `data::GameTraits::tileSize`, the game's fixed
tile size in pixels (the spec's 8-pixel quantization granularity). -/
def tileSize : ℤ := 8

/-- Embeds `PIXEL_PERFECT_SCALE_X` from `upscaling_utils.cpp`. -/
def PIXEL_PERFECT_SCALE_X : ℤ := 5

/-- Embeds `PIXEL_PERFECT_SCALE_Y` from `upscaling_utils.cpp`. -/
def PIXEL_PERFECT_SCALE_Y : ℤ := 6

/-- The `quantize` lambda inside `determineUsableSize`:
`float(int(value) - int(value) % 8)` with C++ truncated remainder. -/
def quantize (v : ℚ) : ℤ := ftrunc v - Int.tmod (ftrunc v) 8

/-- Embeds `determineUsableSize` from `upscaling_utils.cpp`: returns the usable
(width, height) as floats (here rationals). -/
def determineUsableSize (windowWidth windowHeight : ℚ) : ℚ × ℚ :=
  if aspectRatio < windowWidth / windowHeight then
    ((aspectRatio * (quantize windowHeight : ℚ)), ((quantize windowHeight : ℚ)))
  else
    (((quantize windowWidth : ℚ)), ((quantize (1 / aspectRatio * windowWidth) : ℚ)))

/-- Embeds `ViewPortInfo` from the renderer header. -/
structure ViewPortInfo where
  mOffset : Vec2
  mSize : Size
  mScale : Vec2f
deriving DecidableEq, Repr

/-- Embeds `WidescreenViewPortInfo` from the renderer header. -/
structure WidescreenViewPortInfo where
  mWidthTiles : ℤ
  mWidthPx : ℤ
  mLeftPaddingPx : ℤ
deriving DecidableEq, Repr

/-- Embeds `determineViewPort` from `upscaling_utils.cpp`; the renderer's window
size is passed explicitly. -/
def determineViewPort (window : Size) : ViewPortInfo :=
  let windowWidth : ℚ := (window.width : ℚ)
  let windowHeight : ℚ := (window.height : ℚ)
  let u := determineUsableSize windowWidth windowHeight
  let widthScale := u.1 / (viewPortWidthPx : ℚ)
  let heightScale := u.2 / (viewPortHeightPx : ℚ)
  let offsetX := (windowWidth - u.1) / 2
  let offsetY := (windowHeight - u.2) / 2
  ⟨⟨ftrunc offsetX, ftrunc offsetY⟩, ⟨ftrunc u.1, ftrunc u.2⟩,
    ⟨widthScale, heightScale⟩⟩

/-- Embeds `canUseWidescreenMode` from `upscaling_utils.cpp`. -/
def canUseWidescreenMode (window : Size) : Bool :=
  decide (aspectRatio < (window.width : ℚ) / (window.height : ℚ))

/-- Embeds `determineWidescreenViewPort` from `upscaling_utils.cpp`. -/
def determineWidescreenViewPort (window : Size) : WidescreenViewPortInfo :=
  let info := determineViewPort window
  let windowWidth := window.width
  let tileWidthScaled := (tileSize : ℚ) * info.mScale.x
  let maxTilesOnScreen := ftrunc ((windowWidth : ℚ) / tileWidthScaled)
  let widthInPixels :=
    min (rround ((maxTilesOnScreen : ℚ) * tileWidthScaled)) windowWidth
  let paddingPixels := windowWidth - widthInPixels
  ⟨maxTilesOnScreen, widthInPixels, Int.tdiv paddingPixels 2⟩

/-- Embeds `scaleVec` from `upscaling_utils.cpp`. -/
def scaleVec (vec : Vec2) (scale : Vec2f) : Vec2 :=
  ⟨rround ((vec.x : ℚ) * scale.x), rround ((vec.y : ℚ) * scale.y)⟩

/-- Embeds `scaleSize` from `upscaling_utils.cpp` (via `asVec`/`asSize`). -/
def scaleSize (size : Size) (scale : Vec2f) : Size :=
  let v := scaleVec ⟨size.width, size.height⟩ scale
  ⟨v.x, v.y⟩

/-- Embeds `data::UpscalingFilter` (header not under `src/`; the three variants are
named throughout the source and spec). -/
inductive UpscalingFilter where
  | Bilinear
  | SharpBilinear
  | PixelPerfect
deriving DecidableEq, Repr

/-- Embeds `data::GameOptions`, restricted to the fields the presentation core
reads (header not under `src/`; field names as used by the source). -/
structure GameOptions where
  mWidescreenModeOn : Bool
  mPerElementUpscalingEnabled : Bool
  mUpscalingFilter : UpscalingFilter
deriving DecidableEq, Repr

/-- Embeds `determineLowResBufferWidth` from `upscaling_utils.cpp`. -/
def determineLowResBufferWidth (window : Size) (widescreenModeWanted : Bool) : ℤ :=
  if widescreenModeWanted && canUseWidescreenMode window then
    let scale := (determineViewPort window).mScale.x
    let fullWidth := (determineWidescreenViewPort window).mWidthPx
    rround ((fullWidth : ℚ) / scale)
  else
    viewPortWidthPx

/-- Embeds `canUsePixelPerfectScaling` from `upscaling_utils.cpp`. -/
def canUsePixelPerfectScaling (window : Size) (options : GameOptions) : Bool :=
  let pixelPerfectBufferWidth :=
    determineLowResBufferWidth window options.mWidescreenModeOn
  decide (pixelPerfectBufferWidth * PIXEL_PERFECT_SCALE_X ≤ window.width) &&
    decide (viewPortHeightPx * PIXEL_PERFECT_SCALE_Y ≤ window.height)

/-- Embeds `RenderTargetTexture`, the external GPU render-target resource consumed
by the presentation engine: its dimensions, the renderer-side per-texture
filtering flag toggled via `Renderer::setFilteringEnabled` (off at creation,
i.e. nearest sampling), and a numeric identity so that replacement of the
resource is observable. -/
structure RenderTargetTexture where
  width : ℤ
  height : ℤ
  filtering : Bool
  id : ℕ
deriving DecidableEq, Repr

/-- Embeds `createFullscreenRenderTarget` from `upscaling_utils.cpp`; `freshId` is
the identity of the newly created GPU resource. -/
def createFullscreenRenderTarget (window : Size) (options : GameOptions)
    (freshId : ℕ) : RenderTargetTexture :=
  if options.mPerElementUpscalingEnabled then
    ⟨window.width, window.height, false, freshId⟩
  else
    ⟨determineLowResBufferWidth window options.mWidescreenModeOn,
      viewPortHeightPx, false, freshId⟩

/-- The state of an `UpscalingBuffer` object: its member variables, plus a
supply of fresh resource identities (`nextId`) so that every created render
target is a new resource. -/
structure UpscalingBuffer where
  mRenderTarget : RenderTargetTexture
  mSharpBilinearRenderTarget : Option RenderTargetTexture
  mPixelPerfectScaling : Bool
  mAlphaMod : ℕ
  nextId : ℕ
deriving DecidableEq, Repr

/-- The `UpscalingBuffer` constructor: creates the main render target and
leaves the remaining members at their declared defaults (`mAlphaMod = 0`,
no sharp-bilinear target, pixel-perfect off). -/
def UpscalingBuffer.init (window : Size) (options : GameOptions) :
    UpscalingBuffer :=
  ⟨createFullscreenRenderTarget window options 0, none, false, 0, 1⟩

/-- Embeds `UpscalingBuffer::setAlphaMod`; the argument is a `std::uint8_t`, so it
is reduced modulo 256. -/
def UpscalingBuffer.setAlphaMod (s : UpscalingBuffer) (alphaMod : ℕ) :
    UpscalingBuffer :=
  { s with mAlphaMod := alphaMod % 256 }

/-- The `alphaMod` accessor from the `UpscalingBuffer` header. -/
def UpscalingBuffer.alphaMod (s : UpscalingBuffer) : ℕ := s.mAlphaMod

/-- Embeds `UpscalingBuffer::updateConfiguration` from `upscaling_utils.cpp`; the
renderer's window size is passed explicitly.  Both render targets that the
call may create are fresh resources drawn from `nextId`. -/
def UpscalingBuffer.updateConfiguration (s : UpscalingBuffer)
    (window : Size) (options : GameOptions) : UpscalingBuffer :=
  let rt := createFullscreenRenderTarget window options s.nextId
  if options.mPerElementUpscalingEnabled then
    { mRenderTarget := rt
      mSharpBilinearRenderTarget := none
      mPixelPerfectScaling := false
      mAlphaMod := s.mAlphaMod
      nextId := s.nextId + 1 }
  else
    let pixelPerfectScalingWanted :=
      options.mUpscalingFilter = UpscalingFilter.PixelPerfect
    let pixelPerfectScalingPossible :=
      canUsePixelPerfectScaling window options = true
    let fallbackToSharpBilinear :=
      pixelPerfectScalingWanted ∧ ¬pixelPerfectScalingPossible
    let mainFiltering := options.mUpscalingFilter = UpscalingFilter.Bilinear
    if options.mUpscalingFilter = UpscalingFilter.SharpBilinear ∨
        fallbackToSharpBilinear then
      { mRenderTarget := { rt with filtering := decide mainFiltering }
        mSharpBilinearRenderTarget := some
          ⟨determineLowResBufferWidth window options.mWidescreenModeOn *
              PIXEL_PERFECT_SCALE_X,
            viewPortHeightPx * PIXEL_PERFECT_SCALE_Y, true, s.nextId + 1⟩
        mPixelPerfectScaling :=
          decide (pixelPerfectScalingWanted ∧ pixelPerfectScalingPossible)
        mAlphaMod := s.mAlphaMod
        nextId := s.nextId + 2 }
    else
      { mRenderTarget := { rt with filtering := decide mainFiltering }
        mSharpBilinearRenderTarget := none
        mPixelPerfectScaling :=
          decide (pixelPerfectScalingWanted ∧ pixelPerfectScalingPossible)
        mAlphaMod := s.mAlphaMod
        nextId := s.nextId + 1 }

/-- One renderer-level operation issued while compositing; `present` is
embedded as the list of operations it performs. -/
inductive RenderCmd where
  | clear
  | saveState
  | restoreState
  | bindTarget (id : ℕ)
  | unbindTarget
  | setColorModulation (r g b a : ℕ)
  | setGlobalScale (scale : Vec2f)
  | setGlobalTranslation (t : Vec2)
  | renderTexture (id : ℕ) (x y : ℤ)
  | submitBatch
deriving DecidableEq, Repr

/-- The `setUpViewport` lambda inside `UpscalingBuffer::present`. -/
def setUpViewportCmds (windowWidth windowHeight : ℚ) (textureWidth textureHeight : ℤ)
    (scale : Vec2f) : List RenderCmd :=
  let usableWidth := (textureWidth : ℚ) * scale.x
  let usableHeight := (textureHeight : ℚ) * scale.y
  let offsetX := (windowWidth - usableWidth) / 2
  let offsetY := (windowHeight - usableHeight) / 2
  [RenderCmd.setGlobalTranslation ⟨ftrunc offsetX, ftrunc offsetY⟩,
    RenderCmd.setGlobalScale scale]

/-- Embeds `UpscalingBuffer::present` from `upscaling_utils.cpp`, embedded as the
trace of renderer operations it issues (scope guards appear as
save/restore and bind/unbind pairs). -/
def UpscalingBuffer.present (s : UpscalingBuffer) (window : Size)
    (isWidescreenFrame perElementUpscaling : Bool) : List RenderCmd :=
  if perElementUpscaling then
    [RenderCmd.clear, RenderCmd.saveState,
      RenderCmd.setColorModulation 255 255 255 s.mAlphaMod,
      RenderCmd.renderTexture s.mRenderTarget.id 0 0,
      RenderCmd.submitBatch, RenderCmd.restoreState]
  else
    let windowWidth : ℚ := (window.width : ℚ)
    let windowHeight : ℚ := (window.height : ℚ)
    let prePass :=
      match s.mSharpBilinearRenderTarget with
      | some sb =>
        [RenderCmd.bindTarget sb.id,
          RenderCmd.setGlobalScale
            ⟨(PIXEL_PERFECT_SCALE_X : ℚ), (PIXEL_PERFECT_SCALE_Y : ℚ)⟩,
          RenderCmd.renderTexture s.mRenderTarget.id 0 0,
          RenderCmd.unbindTarget]
      | none => []
    let mainPass :=
      match s.mSharpBilinearRenderTarget with
      | some sb =>
        let scale := min (windowWidth / (sb.width : ℚ))
          (windowHeight / (sb.height : ℚ))
        let usedWidth := if isWidescreenFrame then sb.width
          else PIXEL_PERFECT_SCALE_X * viewPortWidthPx
        setUpViewportCmds windowWidth windowHeight usedWidth sb.height
            ⟨scale, scale⟩ ++
          [RenderCmd.renderTexture sb.id 0 0]
      | none =>
        if s.mPixelPerfectScaling then
          let usedWidth := if isWidescreenFrame then s.mRenderTarget.width
            else viewPortWidthPx
          setUpViewportCmds windowWidth windowHeight usedWidth
              s.mRenderTarget.height
              ⟨(PIXEL_PERFECT_SCALE_X : ℚ), (PIXEL_PERFECT_SCALE_Y : ℚ)⟩ ++
            [RenderCmd.renderTexture s.mRenderTarget.id 0 0]
        else
          let info := determineViewPort window
          [RenderCmd.setGlobalScale info.mScale] ++
            (if isWidescreenFrame then
              [RenderCmd.setGlobalTranslation
                ⟨(determineWidescreenViewPort window).mLeftPaddingPx, 0⟩]
            else
              [RenderCmd.setGlobalTranslation info.mOffset]) ++
            [RenderCmd.renderTexture s.mRenderTarget.id 0 0]
    prePass ++
      [RenderCmd.clear, RenderCmd.saveState,
        RenderCmd.setColorModulation 255 255 255 s.mAlphaMod] ++
      mainPass ++ [RenderCmd.submitBatch, RenderCmd.restoreState]

/-- Strips resource identities from one compositing operation, leaving the
observable scale/offset/filter/color data. -/
def eraseId (c : RenderCmd) : RenderCmd :=
  match c with
  | RenderCmd.bindTarget _ => RenderCmd.bindTarget 0
  | RenderCmd.renderTexture _ x y => RenderCmd.renderTexture 0 x y
  | c => c

/-- Strips resource identities from a compositing trace. -/
def eraseIds (cs : List RenderCmd) : List RenderCmd := cs.map eraseId

/-- The observable state of an `UpscalingBuffer`: everything except the
resource identities — pixel-perfect flag, dimensions and filtering flag of
the main target, presence/dimensions/filtering of the sharp-bilinear
target, and the alpha modulator. -/
def UpscalingBuffer.obs (s : UpscalingBuffer) :
    (ℤ × ℤ × Bool) × Option (ℤ × ℤ × Bool) × Bool × ℕ :=
  ((s.mRenderTarget.width, s.mRenderTarget.height, s.mRenderTarget.filtering),
    s.mSharpBilinearRenderTarget.map (fun t => (t.width, t.height, t.filtering)),
    s.mPixelPerfectScaling, s.mAlphaMod)

/-- Embeds `AttributeDescription` from the shader header: attribute name and the
number of float values it occupies per vertex. -/
structure AttributeDescription where
  mName : String
  mValueCount : ℤ
deriving DecidableEq, Repr

/-- Byte size of a GL float, `sizeof(float)`. -/
def sizeofFloat : ℤ := 4

/-- One `glVertexAttribPointer` call issued by `Shader::use`: the attribute
index, its value count, the shared byte stride, and the byte offset. -/
structure AttribPointerCall where
  index : ℕ
  valueCount : ℤ
  stride : ℤ
  offset : ℤ
deriving DecidableEq, Repr

/-- The `std::accumulate` in `Shader::use`: total value count across all
attribute descriptors. -/
def totalValueCount (descs : List AttributeDescription) : ℤ :=
  descs.foldl (fun count desc => count + desc.mValueCount) 0

/-- The attribute-binding loop of `Shader::use`, accumulating `nextOffset`
by `valueCount * sizeof(float)` per descriptor in declaration order. -/
def attribCallsAux (stride : ℤ) (descs : List AttributeDescription)
    (index : ℕ) (nextOffset : ℤ) : List AttribPointerCall :=
  match descs with
  | [] => []
  | d :: rest =>
    ⟨index, d.mValueCount, stride, nextOffset⟩ ::
      attribCallsAux stride rest (index + 1)
        (nextOffset + d.mValueCount * sizeofFloat)

/-- Embeds `Shader::use` from `shader.cpp`: the sequence of
`glVertexAttribPointer` calls it issues for a stored descriptor list. -/
def Shader.use (descs : List AttributeDescription) : List AttribPointerCall :=
  attribCallsAux (sizeofFloat * totalValueCount descs) descs 0 0

/-- Outcome reported by the underlying GL API for one shader-stage
compilation or for program linking: the status flag, and the info log text
when the reported info log length is positive (`none` models a
non-positive `GL_INFO_LOG_LENGTH`). -/
structure GlStageResult where
  ok : Bool
  infoLog : Option String
deriving DecidableEq, Repr

/-- The error taxonomy of shader construction: a failed stage compilation
or a failed program link, each carrying the thrown message text. -/
inductive ShaderError where
  | CompilationError (message : String)
  | LinkError (message : String)
deriving DecidableEq, Repr

/-- Embeds `compileShader` from `shader.cpp`: succeeds when the compile status is
set; otherwise throws, embedding the compiler diagnostic when the info log
is available and a fixed fallback message when it is not. -/
def compileShader (result : GlStageResult) : Except ShaderError Unit :=
  if result.ok then Except.ok ()
  else
    match result.infoLog with
    | some log =>
      Except.error (ShaderError.CompilationError
        ("Shader compilation failed:\n\n" ++ log))
    | none =>
      Except.error (ShaderError.CompilationError
        ("Shader compilation failed, but could not get info log"))

/-- The GL outcomes encountered while constructing one `Shader`: vertex
stage, fragment stage, and program link. -/
structure GlShaderOutcome where
  vertex : GlStageResult
  fragment : GlStageResult
  link : GlStageResult
deriving DecidableEq, Repr

/-- The `Shader` constructor from `shader.cpp`: compiles the vertex stage,
then the fragment stage, then links; the first failure propagates as the
thrown error, and a link failure embeds the linker diagnostic or a fixed
fallback message. -/
def Shader.construct (outcome : GlShaderOutcome) : Except ShaderError Unit :=
  match compileShader outcome.vertex with
  | Except.error e => Except.error e
  | Except.ok _ =>
    match compileShader outcome.fragment with
    | Except.error e => Except.error e
    | Except.ok _ =>
      if outcome.link.ok then Except.ok ()
      else
        match outcome.link.infoLog with
        | some log =>
          Except.error (ShaderError.LinkError
            ("Shader program linking failed:\n\n" ++ log))
        | none =>
          Except.error (ShaderError.LinkError
            ("Shader program linking failed, but could not get info log"))

/-! ## Helper lemmas -/

theorem ftrunc_of_nonneg {q : ℚ} (h : 0 ≤ q) : ftrunc q = ⌊q⌋ := if_pos h

theorem ftrunc_intCast (n : ℤ) : ftrunc (n : ℚ) = n := by
  unfold ftrunc
  split <;> simp

theorem totalValueCount_eq_sum (l : List AttributeDescription) :
    totalValueCount l = (l.map AttributeDescription.mValueCount).sum := by
  have key : ∀ (l : List AttributeDescription) (a : ℤ),
      List.foldl (fun c d => c + d.mValueCount) a l =
        a + (l.map AttributeDescription.mValueCount).sum := by
    intro l
    induction l with
    | nil => intro a; simp
    | cons d t ih => intro a; simp [ih, add_assoc]
  simpa using key l 0

theorem totalValueCount_cons (d : AttributeDescription)
    (l : List AttributeDescription) :
    totalValueCount (d :: l) = d.mValueCount + totalValueCount l := by
  simp [totalValueCount_eq_sum]

theorem attribCallsAux_length (descs : List AttributeDescription)
    (stride : ℤ) (index : ℕ) (off : ℤ) :
    (attribCallsAux stride descs index off).length = descs.length := by
  induction descs generalizing index off with
  | nil => simp [attribCallsAux]
  | cons d t ih => simp [attribCallsAux, ih]

theorem attribCallsAux_get (descs : List AttributeDescription) (stride : ℤ)
    (index : ℕ) (off : ℤ) (i : ℕ) (h : i < descs.length)
    (h2 : i < (attribCallsAux stride descs index off).length) :
    (attribCallsAux stride descs index off).get ⟨i, h2⟩ =
      ⟨index + i, (descs.get ⟨i, h⟩).mValueCount, stride,
        off + sizeofFloat * totalValueCount (descs.take i)⟩ := by
  induction descs generalizing index off i with
  | nil => exact absurd h (by simp)
  | cons d t ih =>
    cases i with
    | zero => simp [attribCallsAux, totalValueCount]
    | succ j =>
      have hj : j < t.length := by simpa using h
      have hj2 : j < (attribCallsAux stride t (index + 1)
          (off + d.mValueCount * sizeofFloat)).length := by
        simpa [attribCallsAux_length] using hj
      have := ih (index + 1) (off + d.mValueCount * sizeofFloat) j hj hj2
      simp only [attribCallsAux, List.get_cons_succ, this, List.take_succ_cons,
        totalValueCount_cons, AttribPointerCall.mk.injEq]
      exact ⟨by omega, trivial, trivial, by ring⟩

/-! ## Claim theorems -/

/-- C5: `Shader::use` binds attribute `i` at byte offset equal to the sum of
the value counts of the attributes before it times `sizeof(float)`, with a
shared stride of the total value count times `sizeof(float)`, in declaration
order; for descriptors `[{pos,2},{uv,2}]` the stride is `4*sizeof(float)`
and the `uv` offset is `2*sizeof(float)`. -/
theorem shader_use_attribute_layout (descs : List AttributeDescription)
    (i : ℕ) (h : i < descs.length) :
    (Shader.use descs).length = descs.length ∧
    (∀ h2 : i < (Shader.use descs).length,
      (Shader.use descs).get ⟨i, h2⟩ =
        ⟨i, (descs.get ⟨i, h⟩).mValueCount,
          sizeofFloat * totalValueCount descs,
          sizeofFloat * totalValueCount (descs.take i)⟩) ∧
    Shader.use [⟨("pos"), 2⟩, ⟨("uv"), 2⟩] =
      [⟨0, 2, 4 * sizeofFloat, 0⟩, ⟨1, 2, 4 * sizeofFloat, 2 * sizeofFloat⟩] := by
  refine ⟨attribCallsAux_length descs _ 0 0, fun h2 => ?_, by decide⟩
  simpa using attribCallsAux_get descs (sizeofFloat * totalValueCount descs)
    0 0 i h h2

/-- Witness for C5 at the concrete descriptor list `[{pos,2},{uv,2}]` and
attribute index 1. -/
theorem shader_use_attribute_layout_witness :
    1 < ([⟨("pos"), 2⟩, ⟨("uv"), 2⟩] : List AttributeDescription).length ∧
    (Shader.use [⟨("pos"), 2⟩, ⟨("uv"), 2⟩]).length = 2 :=
  ⟨by decide, by
    simpa using
      (shader_use_attribute_layout [⟨("pos"), 2⟩, ⟨("uv"), 2⟩] 1 (by decide)).1⟩

/-- C6: shader construction fails with a `CompilationError` exactly when the
vertex or the fragment stage fails to compile and with a `LinkError` exactly
when linking fails, each carrying the API diagnostic when one is available
and a fixed fallback message when the info log is empty. -/
theorem shader_construct_errors (outcome : GlShaderOutcome) :
    ((∃ msg, Shader.construct outcome =
        Except.error (ShaderError.CompilationError msg)) ↔
      (outcome.vertex.ok = false ∨ outcome.fragment.ok = false)) ∧
    ((∃ msg, Shader.construct outcome =
        Except.error (ShaderError.LinkError msg)) ↔
      (outcome.vertex.ok = true ∧ outcome.fragment.ok = true ∧
        outcome.link.ok = false)) ∧
    (∀ log, outcome.vertex.ok = false → outcome.vertex.infoLog = some log →
      Shader.construct outcome = Except.error (ShaderError.CompilationError
        ("Shader compilation failed:\n\n" ++ log))) ∧
    (outcome.vertex.ok = false → outcome.vertex.infoLog = none →
      Shader.construct outcome = Except.error (ShaderError.CompilationError
        ("Shader compilation failed, but could not get info log"))) ∧
    (∀ log, outcome.vertex.ok = true → outcome.fragment.ok = false →
      outcome.fragment.infoLog = some log →
      Shader.construct outcome = Except.error (ShaderError.CompilationError
        ("Shader compilation failed:\n\n" ++ log))) ∧
    (outcome.vertex.ok = true → outcome.fragment.ok = false →
      outcome.fragment.infoLog = none →
      Shader.construct outcome = Except.error (ShaderError.CompilationError
        ("Shader compilation failed, but could not get info log"))) ∧
    (∀ log, outcome.vertex.ok = true → outcome.fragment.ok = true →
      outcome.link.ok = false → outcome.link.infoLog = some log →
      Shader.construct outcome = Except.error (ShaderError.LinkError
        ("Shader program linking failed:\n\n" ++ log))) ∧
    (outcome.vertex.ok = true → outcome.fragment.ok = true →
      outcome.link.ok = false → outcome.link.infoLog = none →
      Shader.construct outcome = Except.error (ShaderError.LinkError
        "Shader program linking failed, but could not get info log")) := by
  obtain ⟨⟨vok, vlog⟩, ⟨fok, flog⟩, ⟨lok, llog⟩⟩ := outcome
  cases vok <;> cases fok <;> cases lok <;>
    cases vlog <;> cases flog <;> cases llog <;>
    simp [Shader.construct, compileShader]

/-- Witness for C6: a failing vertex stage with diagnostic text produces a
`CompilationError` carrying that text. -/
theorem shader_construct_errors_witness :
    Shader.construct ⟨⟨false, some ("type error")⟩, ⟨true, none⟩, ⟨true, none⟩⟩ =
      Except.error (ShaderError.CompilationError
        ("Shader compilation failed:\n\n" ++ "type error")) :=
  (shader_construct_errors
      ⟨⟨false, some ("type error")⟩, ⟨true, none⟩, ⟨true, none⟩⟩).2.2.1
    ("type error") rfl rfl

/-- C1: with per-element upscaling disabled and the `PixelPerfect` filter
requested, `updateConfiguration` enters the `PixelPerfect` state when
`canUsePixelPerfectScaling` holds, and otherwise the `SharpBilinear` state
(an intermediate sharp-bilinear target exists, pixel-perfect is off, and no
bilinear filtering is enabled on the main target) — never plain `Bilinear`;
concretely, window 640x480 yields `SharpBilinear` and window 1600x1200
yields `PixelPerfect`. -/
theorem updateConfiguration_pixelPerfect_modes (s : UpscalingBuffer)
    (window : Size) (options : GameOptions)
    (hpe : options.mPerElementUpscalingEnabled = false)
    (hf : options.mUpscalingFilter = UpscalingFilter.PixelPerfect) :
    (canUsePixelPerfectScaling window options = true →
      (s.updateConfiguration window options).mPixelPerfectScaling = true ∧
      (s.updateConfiguration window options).mSharpBilinearRenderTarget = none) ∧
    (canUsePixelPerfectScaling window options = false →
      (s.updateConfiguration window options).mPixelPerfectScaling = false ∧
      (s.updateConfiguration window options).mSharpBilinearRenderTarget.isSome
        = true ∧
      (s.updateConfiguration window options).mRenderTarget.filtering = false) ∧
    ((s.updateConfiguration ⟨640, 480⟩
        ⟨false, false, UpscalingFilter.PixelPerfect⟩).mPixelPerfectScaling
        = false ∧
      (s.updateConfiguration ⟨640, 480⟩
        ⟨false, false,
          UpscalingFilter.PixelPerfect⟩).mSharpBilinearRenderTarget.isSome
        = true) ∧
    ((s.updateConfiguration ⟨1600, 1200⟩
        ⟨false, false, UpscalingFilter.PixelPerfect⟩).mPixelPerfectScaling
        = true ∧
      (s.updateConfiguration ⟨1600, 1200⟩
        ⟨false, false,
          UpscalingFilter.PixelPerfect⟩).mSharpBilinearRenderTarget
        = none) := by
  have h640 : canUsePixelPerfectScaling ⟨640, 480⟩
      ⟨false, false, UpscalingFilter.PixelPerfect⟩ = false := by
    norm_num [canUsePixelPerfectScaling, determineLowResBufferWidth,
      canUseWidescreenMode, aspectRatio, viewPortWidthPx, viewPortHeightPx,
      PIXEL_PERFECT_SCALE_X, PIXEL_PERFECT_SCALE_Y]
  have h1600 : canUsePixelPerfectScaling ⟨1600, 1200⟩
      ⟨false, false, UpscalingFilter.PixelPerfect⟩ = true := by
    norm_num [canUsePixelPerfectScaling, determineLowResBufferWidth,
      canUseWidescreenMode, aspectRatio, viewPortWidthPx, viewPortHeightPx,
      PIXEL_PERFECT_SCALE_X, PIXEL_PERFECT_SCALE_Y]
  refine ⟨fun hcan => ?_, fun hcan => ?_, ?_, ?_⟩
  · simp [UpscalingBuffer.updateConfiguration, hpe, hf, hcan,
      createFullscreenRenderTarget]
  · simp [UpscalingBuffer.updateConfiguration, hpe, hf, hcan,
      createFullscreenRenderTarget]
  · simp [UpscalingBuffer.updateConfiguration, h640,
      createFullscreenRenderTarget]
  · simp [UpscalingBuffer.updateConfiguration, h1600,
      createFullscreenRenderTarget]

/-- Witness for C1: a buffer reconfigured at window 640x480 with the
pixel-perfect filter lands in the sharp-bilinear fallback state. -/
theorem updateConfiguration_pixelPerfect_modes_witness :
    (GameOptions.mPerElementUpscalingEnabled
        ⟨false, false, UpscalingFilter.PixelPerfect⟩ = false) ∧
    (((UpscalingBuffer.init ⟨640, 480⟩
          ⟨false, false, UpscalingFilter.PixelPerfect⟩).updateConfiguration
        ⟨640, 480⟩
        ⟨false, false, UpscalingFilter.PixelPerfect⟩).mPixelPerfectScaling
      = false ∧
      ((UpscalingBuffer.init ⟨640, 480⟩
          ⟨false, false, UpscalingFilter.PixelPerfect⟩).updateConfiguration
        ⟨640, 480⟩
        ⟨false, false,
          UpscalingFilter.PixelPerfect⟩).mSharpBilinearRenderTarget.isSome
      = true) :=
  ⟨rfl,
    (updateConfiguration_pixelPerfect_modes
      (UpscalingBuffer.init ⟨640, 480⟩
        ⟨false, false, UpscalingFilter.PixelPerfect⟩)
      ⟨640, 480⟩ ⟨false, false, UpscalingFilter.PixelPerfect⟩
      rfl rfl).2.2.1⟩

/-- C9: `createFullscreenRenderTarget` is sized to the full window exactly
when per-element upscaling is enabled; otherwise its height is the fixed
logical height and its width is the logical low-res buffer width, which is
widescreen-adjusted only when widescreen mode is both requested and
feasible. -/
theorem createFullscreenRenderTarget_sizing (window : Size)
    (options : GameOptions) (freshId : ℕ) :
    (options.mPerElementUpscalingEnabled = true →
      (createFullscreenRenderTarget window options freshId).width
          = window.width ∧
        (createFullscreenRenderTarget window options freshId).height
          = window.height) ∧
    (options.mPerElementUpscalingEnabled = false →
      (createFullscreenRenderTarget window options freshId).height
          = viewPortHeightPx ∧
        (createFullscreenRenderTarget window options freshId).width
          = determineLowResBufferWidth window options.mWidescreenModeOn ∧
        (¬(options.mWidescreenModeOn = true ∧
            canUseWidescreenMode window = true) →
          (createFullscreenRenderTarget window options freshId).width
            = viewPortWidthPx) ∧
        (options.mWidescreenModeOn = true → canUseWidescreenMode window = true →
          (createFullscreenRenderTarget window options freshId).width
            = rround (((determineWidescreenViewPort window).mWidthPx : ℚ) /
                (determineViewPort window).mScale.x))) := by
  refine ⟨fun hpe => by simp [createFullscreenRenderTarget, hpe],
    fun hpe => ⟨by simp [createFullscreenRenderTarget, hpe],
      by simp [createFullscreenRenderTarget, hpe], fun hnot => ?_,
      fun hws hcw => ?_⟩⟩
  · rcases Bool.eq_false_or_eq_true options.mWidescreenModeOn with hws | hws
    · have hcw : canUseWidescreenMode window = false := by
        rcases Bool.eq_false_or_eq_true (canUseWidescreenMode window) with
          hc | hc
        · exact absurd ⟨hws, hc⟩ hnot
        · exact hc
      simp [createFullscreenRenderTarget, hpe, determineLowResBufferWidth,
        hws, hcw]
    · simp [createFullscreenRenderTarget, hpe, determineLowResBufferWidth, hws]
  · simp [createFullscreenRenderTarget, hpe, determineLowResBufferWidth,
      hws, hcw]

/-- Witness for C9 at window 640x480 with widescreen off and per-element
upscaling off: the target is the fixed logical 320x200 buffer. -/
theorem createFullscreenRenderTarget_sizing_witness :
    (GameOptions.mPerElementUpscalingEnabled
        ⟨false, false, UpscalingFilter.Bilinear⟩ = false) ∧
    (createFullscreenRenderTarget ⟨640, 480⟩
        ⟨false, false, UpscalingFilter.Bilinear⟩ 0).width = viewPortWidthPx ∧
    (createFullscreenRenderTarget ⟨640, 480⟩
        ⟨false, false, UpscalingFilter.Bilinear⟩ 0).height
      = viewPortHeightPx :=
  ⟨rfl,
    ((createFullscreenRenderTarget_sizing ⟨640, 480⟩
        ⟨false, false, UpscalingFilter.Bilinear⟩ 0).2 rfl).2.2.1
      (by simp),
    ((createFullscreenRenderTarget_sizing ⟨640, 480⟩
        ⟨false, false, UpscalingFilter.Bilinear⟩ 0).2 rfl).1⟩

/-- C10: a freshly constructed `UpscalingBuffer` has `alphaMod() = 0`;
after `setAlphaMod(a)` the accessor returns `a`; and every branch of
`present` issues color modulation `(255, 255, 255, alphaMod)`. -/
theorem alphaMod_and_present_modulation :
    (∀ window options, (UpscalingBuffer.init window options).alphaMod = 0) ∧
    (∀ s a, a < 256 → (UpscalingBuffer.setAlphaMod s a).alphaMod = a) ∧
    (∀ s window iw pe,
      RenderCmd.setColorModulation 255 255 255 s.mAlphaMod ∈
        UpscalingBuffer.present s window iw pe) := by
  refine ⟨fun window options => rfl, fun s a ha => ?_,
    fun s window iw pe => ?_⟩
  · simp [UpscalingBuffer.setAlphaMod, UpscalingBuffer.alphaMod,
      Nat.mod_eq_of_lt ha]
  · unfold UpscalingBuffer.present
    rcases Bool.eq_false_or_eq_true pe with hpe | hpe
    · simp [hpe]
    · simp [hpe]

/-- Witness for C10: setting the alpha modulator to 7 makes the accessor
return 7. -/
theorem alphaMod_and_present_modulation_witness :
    7 < 256 ∧
    (UpscalingBuffer.setAlphaMod
        (UpscalingBuffer.init ⟨640, 480⟩
          ⟨false, false, UpscalingFilter.Bilinear⟩) 7).alphaMod = 7 :=
  ⟨by decide,
    alphaMod_and_present_modulation.2.1
      (UpscalingBuffer.init ⟨640, 480⟩ ⟨false, false, UpscalingFilter.Bilinear⟩)
      7 (by decide)⟩

theorem quantize_eq_of_nonneg {v : ℚ} (h : 0 ≤ v) :
    quantize v = ⌊v⌋ - ⌊v⌋ % 8 := by
  unfold quantize
  rw [ftrunc_of_nonneg h,
    Int.tmod_eq_emod (Int.floor_nonneg.mpr h) (by norm_num)]

theorem quantize_nonneg {v : ℚ} (h : 0 ≤ v) : 0 ≤ quantize v := by
  rw [quantize_eq_of_nonneg h]
  have h0 : 0 ≤ ⌊v⌋ := Int.floor_nonneg.mpr h
  omega

theorem quantize_le {v : ℚ} (h : 0 ≤ v) : (quantize v : ℚ) ≤ v := by
  have h0 : 0 ≤ ⌊v⌋ := Int.floor_nonneg.mpr h
  have h1 : quantize v ≤ ⌊v⌋ := by
    rw [quantize_eq_of_nonneg h]
    omega
  calc (quantize v : ℚ) ≤ (⌊v⌋ : ℚ) := by exact_mod_cast h1
    _ ≤ v := Int.floor_le v

theorem dvd_quantize {v : ℚ} (h : 0 ≤ v) : 8 ∣ quantize v := by
  rw [quantize_eq_of_nonneg h]
  omega

theorem eight_le_quantize {v : ℚ} (h : 8 ≤ v) : 8 ≤ quantize v := by
  have h8 : (8 : ℤ) ≤ ⌊v⌋ := Int.le_floor.mpr (by exact_mod_cast h)
  rw [quantize_eq_of_nonneg (le_trans (by norm_num) h)]
  omega

theorem determineUsableSize_bounds (w h : ℤ) (hw : 0 < w) (hh : 0 < h) :
    0 ≤ (determineUsableSize (w : ℚ) (h : ℚ)).1 ∧
    (determineUsableSize (w : ℚ) (h : ℚ)).1 ≤ (w : ℚ) ∧
    0 ≤ (determineUsableSize (w : ℚ) (h : ℚ)).2 ∧
    (determineUsableSize (w : ℚ) (h : ℚ)).2 ≤ (h : ℚ) := by
  have hwq : (0 : ℚ) ≤ (w : ℚ) := by exact_mod_cast hw.le
  have hhq : (0 : ℚ) < (h : ℚ) := by exact_mod_cast hh
  unfold determineUsableSize
  split
  case isTrue hcond =>
    have hq0 : (0 : ℚ) ≤ ((quantize (h : ℚ)) : ℚ) := by
      exact_mod_cast quantize_nonneg hhq.le
    have hqle : ((quantize (h : ℚ)) : ℚ) ≤ (h : ℚ) := quantize_le hhq.le
    have harw : aspectRatio * (h : ℚ) < (w : ℚ) := (lt_div_iff hhq).mp hcond
    have haq : (0 : ℚ) < aspectRatio := by norm_num [aspectRatio]
    refine ⟨by positivity, ?_, hq0, hqle⟩
    calc aspectRatio * ((quantize (h : ℚ)) : ℚ)
        ≤ aspectRatio * (h : ℚ) :=
          mul_le_mul_of_nonneg_left hqle haq.le
      _ ≤ (w : ℚ) := harw.le
  case isFalse hcond =>
    push_neg at hcond
    have hq0 : (0 : ℚ) ≤ ((quantize (w : ℚ)) : ℚ) := by
      exact_mod_cast quantize_nonneg hwq
    have hqle : ((quantize (w : ℚ)) : ℚ) ≤ (w : ℚ) := quantize_le hwq
    have harg : (0 : ℚ) ≤ 1 / aspectRatio * (w : ℚ) := by
      have : (0 : ℚ) < aspectRatio := by norm_num [aspectRatio]
      positivity
    have hwh : (w : ℚ) ≤ aspectRatio * (h : ℚ) := by
      have := (div_le_iff hhq).mp hcond
      linarith
    have hq0b : (0 : ℚ) ≤ ((quantize (1 / aspectRatio * (w : ℚ))) : ℚ) := by
      exact_mod_cast quantize_nonneg harg
    have hqleb : ((quantize (1 / aspectRatio * (w : ℚ))) : ℚ) ≤
        1 / aspectRatio * (w : ℚ) := quantize_le harg
    refine ⟨hq0, hqle, hq0b, le_trans hqleb ?_⟩
    rw [aspectRatio] at hwh ⊢
    linarith

theorem determineViewPort_eq (w h : ℤ) (hw : 0 < w) (hh : 0 < h) :
    determineViewPort ⟨w, h⟩ =
      ⟨⟨⌊((w : ℚ) - (determineUsableSize (w : ℚ) (h : ℚ)).1) / 2⌋,
          ⌊((h : ℚ) - (determineUsableSize (w : ℚ) (h : ℚ)).2) / 2⌋⟩,
        ⟨⌊(determineUsableSize (w : ℚ) (h : ℚ)).1⌋,
          ⌊(determineUsableSize (w : ℚ) (h : ℚ)).2⌋⟩,
        ⟨(determineUsableSize (w : ℚ) (h : ℚ)).1 / (viewPortWidthPx : ℚ),
          (determineUsableSize (w : ℚ) (h : ℚ)).2 / (viewPortHeightPx : ℚ)⟩⟩ := by
  obtain ⟨h1, h2, h3, h4⟩ := determineUsableSize_bounds w h hw hh
  unfold determineViewPort
  simp only []
  rw [ftrunc_of_nonneg (by linarith : (0 : ℚ) ≤ ((w : ℚ) -
      (determineUsableSize (w : ℚ) (h : ℚ)).1) / 2),
    ftrunc_of_nonneg (by linarith : (0 : ℚ) ≤ ((h : ℚ) -
      (determineUsableSize (w : ℚ) (h : ℚ)).2) / 2),
    ftrunc_of_nonneg h1, ftrunc_of_nonneg h3]

theorem determineUsableSize_pos (w h : ℤ) (hw : 11 ≤ w) (hh : 8 ≤ h) :
    0 < (determineUsableSize (w : ℚ) (h : ℚ)).1 ∧
    0 < (determineUsableSize (w : ℚ) (h : ℚ)).2 := by
  have hwq : (11 : ℚ) ≤ (w : ℚ) := by exact_mod_cast hw
  have hhq : (8 : ℚ) ≤ (h : ℚ) := by exact_mod_cast hh
  unfold determineUsableSize
  split
  case isTrue hcond =>
    have h8 : (8 : ℤ) ≤ quantize (h : ℚ) := eight_le_quantize hhq
    have h8q : (8 : ℚ) ≤ ((quantize (h : ℚ)) : ℚ) := by exact_mod_cast h8
    constructor
    · rw [aspectRatio]
      linarith
    · linarith
  case isFalse hcond =>
    have h8 : (8 : ℤ) ≤ quantize (w : ℚ) :=
      eight_le_quantize (by linarith)
    have h8q : (8 : ℚ) ≤ ((quantize (w : ℚ)) : ℚ) := by exact_mod_cast h8
    have harg : (8 : ℚ) ≤ 1 / aspectRatio * (w : ℚ) := by
      rw [aspectRatio]
      linarith
    have h8b : (8 : ℤ) ≤ quantize (1 / aspectRatio * (w : ℚ)) :=
      eight_le_quantize harg
    have h8bq : (8 : ℚ) ≤ ((quantize (1 / aspectRatio * (w : ℚ))) : ℚ) := by
      exact_mod_cast h8b
    constructor <;> linarith

/-- C3 counterexample: at the positive window size 8x8 the viewport's
vertical scale factor is zero, so the invariant `scale.x > 0 ∧ scale.y > 0`
fails as stated for some window sizes. -/
theorem determineViewPort_invariants_counterexample :
    (0 < (8 : ℤ) ∧ 0 < (8 : ℤ)) ∧
    (determineViewPort ⟨8, 8⟩).mScale.y = 0 ∧
    ¬(0 < (determineViewPort ⟨8, 8⟩).mScale.x ∧
      0 < (determineViewPort ⟨8, 8⟩).mScale.y) := by
  have hz : (determineViewPort ⟨8, 8⟩).mScale.y = 0 := by
    norm_num [determineViewPort, determineUsableSize, quantize, ftrunc,
      aspectRatio, viewPortWidthPx, viewPortHeightPx, Int.tmod_eq_emod]
  exact ⟨⟨by norm_num, by norm_num⟩, hz, fun hcl => by
    rw [hz] at hcl
    exact lt_irrefl 0 hcl.2⟩

/-- C3 (amended): for every positive window size the viewport offsets are
nonnegative and offset plus size stays within the window; the scale factors
are positive provided the window is at least 11 pixels wide and 8 pixels
tall (smaller windows quantize a usable dimension to zero). -/
theorem determineViewPort_invariants (w h : ℤ) (hw : 0 < w) (hh : 0 < h) :
    (0 ≤ (determineViewPort ⟨w, h⟩).mOffset.x ∧
      0 ≤ (determineViewPort ⟨w, h⟩).mOffset.y ∧
      (determineViewPort ⟨w, h⟩).mOffset.x +
        (determineViewPort ⟨w, h⟩).mSize.width ≤ w ∧
      (determineViewPort ⟨w, h⟩).mOffset.y +
        (determineViewPort ⟨w, h⟩).mSize.height ≤ h) ∧
    (11 ≤ w → 8 ≤ h →
      0 < (determineViewPort ⟨w, h⟩).mScale.x ∧
      0 < (determineViewPort ⟨w, h⟩).mScale.y) := by
  obtain ⟨h1, h2, h3, h4⟩ := determineUsableSize_bounds w h hw hh
  rw [determineViewPort_eq w h hw hh]
  refine ⟨⟨?_, ?_, ?_, ?_⟩, fun hw11 hh8 => ?_⟩
  · exact Int.floor_nonneg.mpr (by linarith)
  · exact Int.floor_nonneg.mpr (by linarith)
  · have fx := Int.floor_le (((w : ℚ) -
      (determineUsableSize (w : ℚ) (h : ℚ)).1) / 2)
    have fs := Int.floor_le (determineUsableSize (w : ℚ) (h : ℚ)).1
    have : ((⌊((w : ℚ) - (determineUsableSize (w : ℚ) (h : ℚ)).1) / 2⌋ +
        ⌊(determineUsableSize (w : ℚ) (h : ℚ)).1⌋ : ℤ) : ℚ) ≤ (w : ℚ) := by
      push_cast
      linarith
    exact_mod_cast this
  · have fy := Int.floor_le (((h : ℚ) -
      (determineUsableSize (w : ℚ) (h : ℚ)).2) / 2)
    have fs := Int.floor_le (determineUsableSize (w : ℚ) (h : ℚ)).2
    have : ((⌊((h : ℚ) - (determineUsableSize (w : ℚ) (h : ℚ)).2) / 2⌋ +
        ⌊(determineUsableSize (w : ℚ) (h : ℚ)).2⌋ : ℤ) : ℚ) ≤ (h : ℚ) := by
      push_cast
      linarith
    exact_mod_cast this
  · obtain ⟨p1, p2⟩ := determineUsableSize_pos w h hw11 hh8
    constructor
    · have : (0 : ℚ) < (viewPortWidthPx : ℚ) := by norm_num [viewPortWidthPx]
      positivity
    · have : (0 : ℚ) < (viewPortHeightPx : ℚ) := by
        norm_num [viewPortHeightPx]
      positivity

/-- Witness for the amended C3 at window 1920x1080. -/
theorem determineViewPort_invariants_witness :
    0 < (1920 : ℤ) ∧ 0 < (1080 : ℤ) ∧
    0 ≤ (determineViewPort ⟨1920, 1080⟩).mOffset.x ∧
    (11 ≤ (1920 : ℤ) → 8 ≤ (1080 : ℤ) →
      0 < (determineViewPort ⟨1920, 1080⟩).mScale.x ∧
      0 < (determineViewPort ⟨1920, 1080⟩).mScale.y) :=
  ⟨by norm_num, by norm_num,
    (determineViewPort_invariants 1920 1080 (by norm_num) (by norm_num)).1.1,
    (determineViewPort_invariants 1920 1080 (by norm_num) (by norm_num)).2⟩

/-- C2: `determineViewPort` picks the binding dimension by comparing the
window to the 4:3 aspect ratio (height binds when strictly wider, width
otherwise), quantizes the binding dimension down to a multiple of 8 and
derives the other via the aspect ratio, sets the scale factors to usable
size over logical resolution, and centers the usable area; at 1920x1080 the
usable area is 1440x1080 with offsets (240, 0) and scales (9/2, 27/5). -/
theorem determineViewPort_binding (w h : ℤ) (hw : 0 < w) (hh : 0 < h) :
    (aspectRatio < (w : ℚ) / (h : ℚ) →
      8 ∣ (determineViewPort ⟨w, h⟩).mSize.height ∧
      (determineViewPort ⟨w, h⟩).mSize.height ≤ h ∧
      (determineUsableSize (w : ℚ) (h : ℚ)).2 =
        (((determineViewPort ⟨w, h⟩).mSize.height : ℤ) : ℚ) ∧
      (determineUsableSize (w : ℚ) (h : ℚ)).1 =
        aspectRatio * (((determineViewPort ⟨w, h⟩).mSize.height : ℤ) : ℚ)) ∧
    ((w : ℚ) / (h : ℚ) ≤ aspectRatio →
      8 ∣ (determineViewPort ⟨w, h⟩).mSize.width ∧
      (determineViewPort ⟨w, h⟩).mSize.width ≤ w ∧
      (determineUsableSize (w : ℚ) (h : ℚ)).1 =
        (((determineViewPort ⟨w, h⟩).mSize.width : ℤ) : ℚ) ∧
      8 ∣ (determineViewPort ⟨w, h⟩).mSize.height) ∧
    ((determineViewPort ⟨w, h⟩).mScale.x =
        (determineUsableSize (w : ℚ) (h : ℚ)).1 / (viewPortWidthPx : ℚ) ∧
      (determineViewPort ⟨w, h⟩).mScale.y =
        (determineUsableSize (w : ℚ) (h : ℚ)).2 / (viewPortHeightPx : ℚ) ∧
      (determineViewPort ⟨w, h⟩).mOffset.x =
        ⌊((w : ℚ) - (determineUsableSize (w : ℚ) (h : ℚ)).1) / 2⌋ ∧
      (determineViewPort ⟨w, h⟩).mOffset.y =
        ⌊((h : ℚ) - (determineUsableSize (w : ℚ) (h : ℚ)).2) / 2⌋) ∧
    (determineViewPort ⟨1920, 1080⟩ =
        ⟨⟨240, 0⟩, ⟨1440, 1080⟩, ⟨9 / 2, 27 / 5⟩⟩ ∧
      (1080 : ℤ) % 8 = 0 ∧
      (1440 : ℚ) = aspectRatio * (1080 : ℚ) ∧
      (240 : ℤ) = ((1920 : ℤ) - 1440) / 2) := by
  have hhq : (0 : ℚ) ≤ (h : ℚ) := by exact_mod_cast hh.le
  have hwq : (0 : ℚ) ≤ (w : ℚ) := by exact_mod_cast hw.le
  refine ⟨fun hcond => ?_, fun hcond => ?_, ?_, ?_⟩
  · have hu : determineUsableSize (w : ℚ) (h : ℚ) =
        (aspectRatio * ((quantize (h : ℚ)) : ℚ), ((quantize (h : ℚ)) : ℚ)) := by
      unfold determineUsableSize
      rw [if_pos hcond]
    have hheight : (determineViewPort ⟨w, h⟩).mSize.height = quantize (h : ℚ) := by
      rw [determineViewPort_eq w h hw hh]
      simp [hu]
    refine ⟨?_, ?_, ?_, ?_⟩
    · rw [hheight]
      exact dvd_quantize hhq
    · rw [hheight]
      exact_mod_cast quantize_le hhq
    · rw [hheight, hu]
    · rw [hheight, hu]
  · have hu : determineUsableSize (w : ℚ) (h : ℚ) =
        (((quantize (w : ℚ)) : ℚ),
          ((quantize (1 / aspectRatio * (w : ℚ))) : ℚ)) := by
      unfold determineUsableSize
      rw [if_neg (not_lt.mpr hcond)]
    have hwidth : (determineViewPort ⟨w, h⟩).mSize.width = quantize (w : ℚ) := by
      rw [determineViewPort_eq w h hw hh]
      simp [hu]
    have hheight : (determineViewPort ⟨w, h⟩).mSize.height =
        quantize (1 / aspectRatio * (w : ℚ)) := by
      rw [determineViewPort_eq w h hw hh]
      simp [hu]
    refine ⟨?_, ?_, ?_, ?_⟩
    · rw [hwidth]
      exact dvd_quantize hwq
    · rw [hwidth]
      exact_mod_cast quantize_le hwq
    · rw [hwidth, hu]
    · rw [hheight]
      refine dvd_quantize ?_
      have : (0 : ℚ) < aspectRatio := by norm_num [aspectRatio]
      positivity
  · rw [determineViewPort_eq w h hw hh]
    exact ⟨rfl, rfl, rfl, rfl⟩
  · refine ⟨?_, by norm_num, by norm_num [aspectRatio], by norm_num⟩
    norm_num [determineViewPort, determineUsableSize, quantize, ftrunc,
      aspectRatio, viewPortWidthPx, viewPortHeightPx, Int.tmod_eq_emod,
      Vec2.mk.injEq, Size.mk.injEq, Vec2f.mk.injEq, ViewPortInfo.mk.injEq]

/-- Witness for C2 at window 1920x1080. -/
theorem determineViewPort_binding_witness :
    0 < (1920 : ℤ) ∧ 0 < (1080 : ℤ) ∧
    determineViewPort ⟨1920, 1080⟩ =
      ⟨⟨240, 0⟩, ⟨1440, 1080⟩, ⟨9 / 2, 27 / 5⟩⟩ :=
  ⟨by norm_num, by norm_num,
    (determineViewPort_binding 1920 1080 (by norm_num)
      (by norm_num)).2.2.2.1⟩

/-- C8: for every window with positive width and a positive horizontal
viewport scale, `determineWidescreenViewPort` returns the greatest whole
number of logical tiles fitting across the window at that scale, a pixel
width obtained by rounding tiles-times-scaled-tile-width half away from
zero and clamped to the window width, and a left padding of half the
remaining window width. -/
theorem determineWidescreenViewPort_spec (w h : ℤ) (hw : 0 < w)
    (hscale : 0 < (determineViewPort ⟨w, h⟩).mScale.x) :
    (((determineWidescreenViewPort ⟨w, h⟩).mWidthTiles : ℚ) *
        ((tileSize : ℚ) * (determineViewPort ⟨w, h⟩).mScale.x) ≤ (w : ℚ) ∧
      (w : ℚ) < (((determineWidescreenViewPort ⟨w, h⟩).mWidthTiles : ℚ) + 1) *
        ((tileSize : ℚ) * (determineViewPort ⟨w, h⟩).mScale.x)) ∧
    (determineWidescreenViewPort ⟨w, h⟩).mWidthPx =
      min (rround (((determineWidescreenViewPort ⟨w, h⟩).mWidthTiles : ℚ) *
        ((tileSize : ℚ) * (determineViewPort ⟨w, h⟩).mScale.x))) w ∧
    (determineWidescreenViewPort ⟨w, h⟩).mWidthPx ≤ w ∧
    (2 * (determineWidescreenViewPort ⟨w, h⟩).mLeftPaddingPx ≤
        w - (determineWidescreenViewPort ⟨w, h⟩).mWidthPx ∧
      w - (determineWidescreenViewPort ⟨w, h⟩).mWidthPx ≤
        2 * (determineWidescreenViewPort ⟨w, h⟩).mLeftPaddingPx + 1) := by
  have hwq : (0 : ℚ) ≤ (w : ℚ) := by exact_mod_cast hw.le
  have htws : (0 : ℚ) <
      (tileSize : ℚ) * (determineViewPort ⟨w, h⟩).mScale.x := by
    have ht : (0 : ℚ) < (tileSize : ℚ) := by norm_num [tileSize]
    exact mul_pos ht hscale
  have hrepr : determineWidescreenViewPort ⟨w, h⟩ =
      ⟨⌊(w : ℚ) / ((tileSize : ℚ) * (determineViewPort ⟨w, h⟩).mScale.x)⌋,
        min (rround ((⌊(w : ℚ) / ((tileSize : ℚ) *
            (determineViewPort ⟨w, h⟩).mScale.x)⌋ : ℚ) *
          ((tileSize : ℚ) * (determineViewPort ⟨w, h⟩).mScale.x))) w,
        Int.tdiv (w - min (rround ((⌊(w : ℚ) / ((tileSize : ℚ) *
            (determineViewPort ⟨w, h⟩).mScale.x)⌋ : ℚ) *
          ((tileSize : ℚ) * (determineViewPort ⟨w, h⟩).mScale.x))) w) 2⟩ := by
    simp only [determineWidescreenViewPort]
    rw [ftrunc_of_nonneg (div_nonneg hwq htws.le)]
  rw [hrepr]
  simp only []
  have hfle : (⌊(w : ℚ) / ((tileSize : ℚ) *
      (determineViewPort ⟨w, h⟩).mScale.x)⌋ : ℚ) ≤
      (w : ℚ) / ((tileSize : ℚ) * (determineViewPort ⟨w, h⟩).mScale.x) :=
    Int.floor_le _
  have hflt : (w : ℚ) / ((tileSize : ℚ) *
        (determineViewPort ⟨w, h⟩).mScale.x) <
      (⌊(w : ℚ) / ((tileSize : ℚ) *
        (determineViewPort ⟨w, h⟩).mScale.x)⌋ : ℚ) + 1 :=
    Int.lt_floor_add_one _
  have hcancel : (w : ℚ) / ((tileSize : ℚ) *
        (determineViewPort ⟨w, h⟩).mScale.x) *
      ((tileSize : ℚ) * (determineViewPort ⟨w, h⟩).mScale.x) = (w : ℚ) :=
    div_mul_cancel₀ _ htws.ne'
  refine ⟨⟨?_, ?_⟩, trivial, min_le_right _ _, ?_⟩
  · calc (⌊(w : ℚ) / ((tileSize : ℚ) *
        (determineViewPort ⟨w, h⟩).mScale.x)⌋ : ℚ) *
          ((tileSize : ℚ) * (determineViewPort ⟨w, h⟩).mScale.x)
        ≤ (w : ℚ) / ((tileSize : ℚ) * (determineViewPort ⟨w, h⟩).mScale.x) *
          ((tileSize : ℚ) * (determineViewPort ⟨w, h⟩).mScale.x) :=
          mul_le_mul_of_nonneg_right hfle htws.le
      _ = (w : ℚ) := hcancel
  · calc (w : ℚ)
        = (w : ℚ) / ((tileSize : ℚ) * (determineViewPort ⟨w, h⟩).mScale.x) *
          ((tileSize : ℚ) * (determineViewPort ⟨w, h⟩).mScale.x) :=
          hcancel.symm
      _ < ((⌊(w : ℚ) / ((tileSize : ℚ) *
            (determineViewPort ⟨w, h⟩).mScale.x)⌋ : ℚ) + 1) *
          ((tileSize : ℚ) * (determineViewPort ⟨w, h⟩).mScale.x) :=
          mul_lt_mul_of_pos_right hflt htws
  · have hminle : min (rround ((⌊(w : ℚ) / ((tileSize : ℚ) *
          (determineViewPort ⟨w, h⟩).mScale.x)⌋ : ℚ) *
        ((tileSize : ℚ) * (determineViewPort ⟨w, h⟩).mScale.x))) w ≤ w :=
      min_le_right _ _
    rw [Int.tdiv_eq_ediv (by omega) (by norm_num)]
    omega

/-- Witness for C8 at window 1920x1080, where the horizontal scale is
9/2. -/
theorem determineWidescreenViewPort_spec_witness :
    0 < (1920 : ℤ) ∧ 0 < (determineViewPort ⟨1920, 1080⟩).mScale.x ∧
    (determineWidescreenViewPort ⟨1920, 1080⟩).mWidthPx ≤ 1920 := by
  have hs : 0 < (determineViewPort ⟨1920, 1080⟩).mScale.x := by
    norm_num [determineViewPort, determineUsableSize, quantize, ftrunc,
      aspectRatio, viewPortWidthPx, viewPortHeightPx, Int.tmod_eq_emod]
  exact ⟨by norm_num, hs,
    (determineWidescreenViewPort_spec 1920 1080 (by norm_num) hs).2.2.1⟩

theorem rround_roundTrip_scalar (a : ℤ) (s : ℚ) (ha : 0 < a)
    (hs : 1 / 2 ≤ s) :
    |rround ((rround ((a : ℚ) * s) : ℚ) * s⁻¹) - a| ≤ 1 := by
  have hs0 : (0 : ℚ) < s := lt_of_lt_of_le (by norm_num) hs
  have haq : (1 : ℚ) ≤ (a : ℚ) := by exact_mod_cast ha
  have hprod : (0 : ℚ) ≤ (a : ℚ) * s := by positivity
  have e1 : rround ((a : ℚ) * s) = ⌊(a : ℚ) * s + 1 / 2⌋ := if_pos hprod
  rw [e1]
  have hr1le : (⌊(a : ℚ) * s + 1 / 2⌋ : ℚ) ≤ (a : ℚ) * s + 1 / 2 :=
    Int.floor_le _
  have hr1gt : (a : ℚ) * s + 1 / 2 - 1 < (⌊(a : ℚ) * s + 1 / 2⌋ : ℚ) :=
    Int.sub_one_lt_floor _
  have hr1nonneg : (0 : ℚ) ≤ (⌊(a : ℚ) * s + 1 / 2⌋ : ℚ) := by
    have : (1 : ℚ) * (1 / 2) ≤ (a : ℚ) * s :=
      mul_le_mul haq hs (by norm_num) (by linarith)
    linarith
  have harg : (0 : ℚ) ≤ (⌊(a : ℚ) * s + 1 / 2⌋ : ℚ) * s⁻¹ := by
    have : (0 : ℚ) ≤ s⁻¹ := by positivity
    exact mul_nonneg hr1nonneg this
  have e2 : rround ((⌊(a : ℚ) * s + 1 / 2⌋ : ℚ) * s⁻¹) =
      ⌊(⌊(a : ℚ) * s + 1 / 2⌋ : ℚ) * s⁻¹ + 1 / 2⌋ := if_pos harg
  rw [e2]
  have hdiv : (⌊(a : ℚ) * s + 1 / 2⌋ : ℚ) * s⁻¹ =
      (⌊(a : ℚ) * s + 1 / 2⌋ : ℚ) / s :=
    (div_eq_mul_inv ((⌊(a : ℚ) * s + 1 / 2⌋ : ℚ)) s).symm
  have hup : (⌊(a : ℚ) * s + 1 / 2⌋ : ℚ) * s⁻¹ ≤ (a : ℚ) + 1 := by
    rw [hdiv, div_le_iff hs0]
    have : (a : ℚ) * s + 1 / 2 ≤ ((a : ℚ) + 1) * s := by ring_nf; linarith
    linarith
  have hdown : (a : ℚ) - 1 < (⌊(a : ℚ) * s + 1 / 2⌋ : ℚ) * s⁻¹ := by
    rw [hdiv, lt_div_iff hs0]
    have : ((a : ℚ) - 1) * s ≤ (a : ℚ) * s - 1 / 2 := by ring_nf; linarith
    linarith
  have h2up : ⌊(⌊(a : ℚ) * s + 1 / 2⌋ : ℚ) * s⁻¹ + 1 / 2⌋ < a + 2 := by
    apply Int.floor_lt.mpr
    push_cast
    linarith
  have h2down : a - 1 ≤ ⌊(⌊(a : ℚ) * s + 1 / 2⌋ : ℚ) * s⁻¹ + 1 / 2⌋ := by
    apply Int.le_floor.mpr
    push_cast
    linarith
  rw [abs_le]
  omega

/-- C4 counterexample: for v = (14, 14) and s = (1/10, 1/10) — positive v,
positive s — the round trip through `scaleVec` returns (10, 10), which
differs from v by 4 per component, violating the claimed tolerance of 1. -/
theorem scaleVec_roundTrip_counterexample :
    0 < (14 : ℤ) ∧ (0 : ℚ) < 1 / 10 ∧
    scaleVec (scaleVec ⟨14, 14⟩ ⟨1 / 10, 1 / 10⟩) ⟨10, 10⟩ = ⟨10, 10⟩ ∧
    ¬(|(scaleVec (scaleVec ⟨14, 14⟩ ⟨1 / 10, 1 / 10⟩) ⟨10, 10⟩).x - 14| ≤ 1 ∧
      |(scaleVec (scaleVec ⟨14, 14⟩ ⟨1 / 10, 1 / 10⟩) ⟨10, 10⟩).y - 14|
        ≤ 1) := by
  have h1 : scaleVec ⟨14, 14⟩ ⟨1 / 10, 1 / 10⟩ = (⟨1, 1⟩ : Vec2) := by
    norm_num [scaleVec, rround, Vec2.mk.injEq]
  have h2 : scaleVec ⟨1, 1⟩ ⟨10, 10⟩ = (⟨10, 10⟩ : Vec2) := by
    norm_num [scaleVec, rround, Vec2.mk.injEq]
  rw [h1, h2]
  norm_num

/-- C4 (amended): for every vector with positive components and every scale
whose components are at least 1/2, the `scaleVec` round trip with the
inverse scale returns the original vector within a tolerance of 1 per
component (the counterexample shows smaller positive scales can exceed any
fixed tolerance). -/
theorem scaleVec_roundTrip (v : Vec2) (s : Vec2f) (hx : 0 < v.x)
    (hy : 0 < v.y) (hsx : 1 / 2 ≤ s.x) (hsy : 1 / 2 ≤ s.y) :
    |(scaleVec (scaleVec v s) ⟨s.x⁻¹, s.y⁻¹⟩).x - v.x| ≤ 1 ∧
    |(scaleVec (scaleVec v s) ⟨s.x⁻¹, s.y⁻¹⟩).y - v.y| ≤ 1 := by
  constructor
  · simpa [scaleVec] using rround_roundTrip_scalar v.x s.x hx hsx
  · simpa [scaleVec] using rround_roundTrip_scalar v.y s.y hy hsy

/-- Witness for the amended C4 at v = (3, 3), s = (2, 2). -/
theorem scaleVec_roundTrip_witness :
    0 < (3 : ℤ) ∧ (1 / 2 : ℚ) ≤ 2 ∧
    |(scaleVec (scaleVec ⟨3, 3⟩ ⟨2, 2⟩) ⟨(2 : ℚ)⁻¹, (2 : ℚ)⁻¹⟩).x - 3| ≤ 1 ∧
    |(scaleVec (scaleVec ⟨3, 3⟩ ⟨2, 2⟩) ⟨(2 : ℚ)⁻¹, (2 : ℚ)⁻¹⟩).y - 3| ≤ 1 :=
  ⟨by norm_num, by norm_num,
    (scaleVec_roundTrip ⟨3, 3⟩ ⟨2, 2⟩ (by norm_num) (by norm_num)
      (by norm_num) (by norm_num)).1,
    (scaleVec_roundTrip ⟨3, 3⟩ ⟨2, 2⟩ (by norm_num) (by norm_num)
      (by norm_num) (by norm_num)).2⟩

theorem update_alphaMod (s : UpscalingBuffer) (window : Size)
    (options : GameOptions) :
    (s.updateConfiguration window options).mAlphaMod = s.mAlphaMod := by
  unfold UpscalingBuffer.updateConfiguration
  by_cases h1 : options.mPerElementUpscalingEnabled = true
  · simp [h1]
  · by_cases h2 : options.mUpscalingFilter = UpscalingFilter.SharpBilinear ∨
        (options.mUpscalingFilter = UpscalingFilter.PixelPerfect ∧
          canUsePixelPerfectScaling window options = false)
    · simp [h1, h2]
    · simp [h1, h2]

theorem update_main_id (s : UpscalingBuffer) (window : Size)
    (options : GameOptions) :
    (s.updateConfiguration window options).mRenderTarget.id = s.nextId := by
  unfold UpscalingBuffer.updateConfiguration createFullscreenRenderTarget
  by_cases h1 : options.mPerElementUpscalingEnabled = true
  · simp [h1]
  · by_cases h2 : options.mUpscalingFilter = UpscalingFilter.SharpBilinear ∨
        (options.mUpscalingFilter = UpscalingFilter.PixelPerfect ∧
          canUsePixelPerfectScaling window options = false)
    · simp [h1, h2]
    · simp [h1, h2]

theorem update_nextId_lt (s : UpscalingBuffer) (window : Size)
    (options : GameOptions) :
    s.nextId < (s.updateConfiguration window options).nextId := by
  unfold UpscalingBuffer.updateConfiguration
  by_cases h1 : options.mPerElementUpscalingEnabled = true
  · simp [h1]
  · by_cases h2 : options.mUpscalingFilter = UpscalingFilter.SharpBilinear ∨
        (options.mUpscalingFilter = UpscalingFilter.PixelPerfect ∧
          canUsePixelPerfectScaling window options = false)
    · simp [h1, h2]
    · simp [h1, h2]

theorem obs_update_congr (s t : UpscalingBuffer) (window : Size)
    (options : GameOptions) (h : s.mAlphaMod = t.mAlphaMod) :
    UpscalingBuffer.obs (s.updateConfiguration window options) =
      UpscalingBuffer.obs (t.updateConfiguration window options) := by
  unfold UpscalingBuffer.updateConfiguration createFullscreenRenderTarget
    UpscalingBuffer.obs
  by_cases h1 : options.mPerElementUpscalingEnabled = true
  · simp [h1, h]
  · by_cases h2 : options.mUpscalingFilter = UpscalingFilter.SharpBilinear ∨
        (options.mUpscalingFilter = UpscalingFilter.PixelPerfect ∧
          canUsePixelPerfectScaling window options = false)
    · simp [h1, h2, h]
    · simp [h1, h2, h]

theorem eraseIds_present_congr (s t : UpscalingBuffer) (window : Size)
    (iw pe : Bool) (h : UpscalingBuffer.obs s = UpscalingBuffer.obs t) :
    eraseIds (s.present window iw pe) = eraseIds (t.present window iw pe) := by
  simp only [UpscalingBuffer.obs, Prod.mk.injEq] at h
  obtain ⟨⟨hw1, hh1, hf1⟩, hsh, hpp, hal⟩ := h
  rcases hs : s.mSharpBilinearRenderTarget with _ | sb <;>
    rcases ht : t.mSharpBilinearRenderTarget with _ | tb
  · rcases Bool.eq_false_or_eq_true pe with hpe | hpe <;>
      rcases Bool.eq_false_or_eq_true iw with hiw | hiw <;>
      rcases Bool.eq_false_or_eq_true t.mPixelPerfectScaling with hp | hp <;>
      simp [UpscalingBuffer.present, eraseIds, eraseId, setUpViewportCmds,
        hs, ht, hal, hpp, hw1, hh1, hpe, hiw, hp]
  · rw [hs, ht] at hsh
    simp at hsh
  · rw [hs, ht] at hsh
    simp at hsh
  · rw [hs, ht] at hsh
    simp only [Option.map_some', Option.some.injEq, Prod.mk.injEq] at hsh
    obtain ⟨hbw, hbh, hbf⟩ := hsh
    rcases Bool.eq_false_or_eq_true pe with hpe | hpe <;>
      rcases Bool.eq_false_or_eq_true iw with hiw | hiw <;>
      simp [UpscalingBuffer.present, eraseIds, eraseId, setUpViewportCmds,
        hs, ht, hal, hpp, hw1, hh1, hpe, hiw, hbw, hbh]

/-- C7: reconfiguring twice with the same configuration yields the same
observable state (pixel-perfect flag, target dimensions and filtering
flags, sharp-bilinear target presence and dimensions, alpha modulator) and
the same subsequent `present` output up to resource identities, while the
main render target's resource identity is freshly replaced — not reused —
by every call. -/
theorem updateConfiguration_idempotent (s : UpscalingBuffer) (window : Size)
    (options : GameOptions) (iw pe : Bool)
    (hwf : s.mRenderTarget.id < s.nextId) :
    UpscalingBuffer.obs
        ((s.updateConfiguration window options).updateConfiguration window
          options) =
      UpscalingBuffer.obs (s.updateConfiguration window options) ∧
    eraseIds
        (((s.updateConfiguration window options).updateConfiguration window
          options).present window iw pe) =
      eraseIds ((s.updateConfiguration window options).present window iw pe) ∧
    (s.updateConfiguration window options).mRenderTarget.id ≠
      s.mRenderTarget.id ∧
    ((s.updateConfiguration window options).updateConfiguration window
        options).mRenderTarget.id ≠
      (s.updateConfiguration window options).mRenderTarget.id := by
  have hobs := obs_update_congr (s.updateConfiguration window options) s
    window options (update_alphaMod s window options)
  refine ⟨hobs, eraseIds_present_congr _ _ window iw pe hobs, ?_, ?_⟩
  · rw [update_main_id]
    omega
  · rw [update_main_id, update_main_id]
    have := update_nextId_lt s window options
    omega

/-- Witness for C7: the freshly constructed buffer at window 640x480 with
the bilinear filter satisfies the resource-identity invariant, and its
reconfigurations are idempotent in the observable state. -/
theorem updateConfiguration_idempotent_witness :
    (UpscalingBuffer.init ⟨640, 480⟩
        ⟨false, false, UpscalingFilter.Bilinear⟩).mRenderTarget.id <
      (UpscalingBuffer.init ⟨640, 480⟩
        ⟨false, false, UpscalingFilter.Bilinear⟩).nextId ∧
    UpscalingBuffer.obs
        (((UpscalingBuffer.init ⟨640, 480⟩
              ⟨false, false, UpscalingFilter.Bilinear⟩).updateConfiguration
            ⟨640, 480⟩
            ⟨false, false, UpscalingFilter.Bilinear⟩).updateConfiguration
          ⟨640, 480⟩ ⟨false, false, UpscalingFilter.Bilinear⟩) =
      UpscalingBuffer.obs
        ((UpscalingBuffer.init ⟨640, 480⟩
            ⟨false, false, UpscalingFilter.Bilinear⟩).updateConfiguration
          ⟨640, 480⟩ ⟨false, false, UpscalingFilter.Bilinear⟩) :=
  ⟨by simp [UpscalingBuffer.init, createFullscreenRenderTarget],
    (updateConfiguration_idempotent
      (UpscalingBuffer.init ⟨640, 480⟩ ⟨false, false, UpscalingFilter.Bilinear⟩)
      ⟨640, 480⟩ ⟨false, false, UpscalingFilter.Bilinear⟩ false false
      (by simp [UpscalingBuffer.init, createFullscreenRenderTarget])).1⟩

end Rigel
